import Mathlib

/-!
Shallow embedding of `src/content/ContentApi.ts` (Ournet/descopero).

The raw (upstream) entity types come from the missing `ContentfulApi.ts`
module; their shape is taken from the spec's dependency contract:
`RawEntityCollection = { items?: RawEntity[], total?: number }` and
`RawEntity = { id, createdAt?, updatedAt?, fields: {...} }`.  JavaScript
dynamics are modelled explicitly: absent / `undefined` values are `Option`,
JS truthiness is a `Bool`-valued function, a thrown `TypeError` is
`Except.error`, and a rejected promise is `Except.error` as well.
-/

set_option autoImplicit false

/-- JS truthiness for an optional string: `undefined`, `null` and `""` are
falsy, any other string is truthy. -/
def jsTruthy : Option String → Bool
  | none => false
  | some s => s != ""

/-- JS truthiness for an optional number: `undefined`, `null` and `0` are
falsy. -/
def jsTruthyInt : Option Int → Bool
  | none => false
  | some n => n != 0

/-- JS `a || b` on an optional number `a` with fallback `b`
(`collection.total || data.total`). -/
def jsOrInt (a : Option Int) (b : Int) : Int :=
  match a with
  | none => b
  | some x => if x != 0 then x else b

/-- Upstream nested `file.details.image` structure. -/
structure ContentfulImageDims where
  width : Option Int := none
  height : Option Int := none
deriving DecidableEq, Repr

/-- Upstream nested `file.details` structure. -/
structure ContentfulFileDetails where
  size : Option Int := none
  image : Option ContentfulImageDims := none
deriving DecidableEq, Repr

/-- Upstream nested `file` structure of an image entity. -/
structure ContentfulFile where
  url : Option String := none
  contentType : Option String := none
  details : Option ContentfulFileDetails := none
deriving DecidableEq, Repr

mutual

/-- A raw upstream entity: `{ id, createdAt?, updatedAt?, fields }`.
`fields` is `Option` because nested references may carry no `fields`
object (the code guards `if (entity.fields)` in `toCategory`/`toImage`). -/
inductive ContentfulEntity : Type where
  | mk (id : String) (createdAt updatedAt : Option String)
       (fields : Option ContentfulFields)

/-- The `fields` bag of a raw entity, restricted to the keys the code
reads: title, slug, summary, text, name, countViews, category, parent,
image, file. -/
inductive ContentfulFields : Type where
  | mk (title slug summary text name : Option String)
       (countViews : Option Int)
       (category parent image : Option ContentfulEntity)
       (file : Option ContentfulFile)

end

@[simp] def ContentfulEntity.id : ContentfulEntity → String
  | .mk i _ _ _ => i

@[simp] def ContentfulEntity.createdAt : ContentfulEntity → Option String
  | .mk _ c _ _ => c

@[simp] def ContentfulEntity.updatedAt : ContentfulEntity → Option String
  | .mk _ _ u _ => u

@[simp] def ContentfulEntity.fields : ContentfulEntity → Option ContentfulFields
  | .mk _ _ _ f => f

@[simp] def ContentfulFields.title : ContentfulFields → Option String
  | .mk t _ _ _ _ _ _ _ _ _ => t

@[simp] def ContentfulFields.slug : ContentfulFields → Option String
  | .mk _ s _ _ _ _ _ _ _ _ => s

@[simp] def ContentfulFields.summary : ContentfulFields → Option String
  | .mk _ _ s _ _ _ _ _ _ _ => s

@[simp] def ContentfulFields.text : ContentfulFields → Option String
  | .mk _ _ _ t _ _ _ _ _ _ => t

@[simp] def ContentfulFields.name : ContentfulFields → Option String
  | .mk _ _ _ _ n _ _ _ _ _ => n

@[simp] def ContentfulFields.countViews : ContentfulFields → Option Int
  | .mk _ _ _ _ _ c _ _ _ _ => c

@[simp] def ContentfulFields.category : ContentfulFields → Option ContentfulEntity
  | .mk _ _ _ _ _ _ c _ _ _ => c

@[simp] def ContentfulFields.parent : ContentfulFields → Option ContentfulEntity
  | .mk _ _ _ _ _ _ _ p _ _ => p

@[simp] def ContentfulFields.image : ContentfulFields → Option ContentfulEntity
  | .mk _ _ _ _ _ _ _ _ i _ => i

@[simp] def ContentfulFields.file : ContentfulFields → Option ContentfulFile
  | .mk _ _ _ _ _ _ _ _ _ f => f

/-- Raw upstream collection: `{ items?: RawEntity[], total?: number }`.
Array elements are `Option` because the per-item converters guard
`if (!entity) return null`. -/
structure ContentfulEntityCollection where
  items : Option (List (Option ContentfulEntity)) := none
  total : Option Int := none

/-- Normalized `CategoryEntity`: `id` plus optional `name`, `slug`,
`parent` (recursive). -/
inductive CategoryEntity : Type where
  | mk (id : String) (name slug : Option String)
       (parent : Option CategoryEntity)

@[simp] def CategoryEntity.id : CategoryEntity → String
  | .mk i _ _ _ => i

@[simp] def CategoryEntity.name : CategoryEntity → Option String
  | .mk _ n _ _ => n

@[simp] def CategoryEntity.slug : CategoryEntity → Option String
  | .mk _ _ s _ => s

@[simp] def CategoryEntity.parent : CategoryEntity → Option CategoryEntity
  | .mk _ _ _ p => p

/-- Normalized `ImageEntity`. -/
structure ImageEntity where
  id : String
  url : Option String := none
  contentType : Option String := none
  size : Option Int := none
  width : Option Int := none
  height : Option Int := none
deriving DecidableEq, Repr

/-- Normalized `ArticleEntity`.  `countViews` is always set by
normalization (`fields.countViews || 1`), so it is not optional here. -/
structure ArticleEntity where
  id : String
  createdAt : Option String := none
  updatedAt : Option String := none
  title : Option String := none
  slug : Option String := none
  summary : Option String := none
  countViews : Int := 1
  text : Option String := none
  category : Option CategoryEntity := none
  image : Option ImageEntity := none

/-- Normalized `EntityCollection<T>`; item slots are `Option` because
`toArticle`/`toCategory` return `null` for falsy raw items. -/
structure EntityCollection (α : Type) where
  total : Int
  items : List (Option α)

/-- `toCategory`: null for a falsy input, otherwise `id` plus, if
`fields` is present, `name`, `slug` and a recursively normalized
`parent` when `fields.parent` is truthy. -/
def toCategory : Option ContentfulEntity → Option CategoryEntity
  | none => none
  | some (.mk i _ _ none) => some (.mk i none none none)
  | some (.mk i _ _ (some (.mk _ slug _ _ name _ _ parentRaw _ _))) =>
    match parentRaw with
    | none => some (.mk i name slug none)
    | some p => some (.mk i name slug (toCategory (some p)))

@[simp] theorem toCategory_none : toCategory none = none := by
  simp [toCategory]

@[simp] theorem toCategory_noFields (i : String) (c u : Option String) :
    toCategory (some (.mk i c u none)) = some (.mk i none none none) := by
  simp [toCategory]

@[simp] theorem toCategory_noParent (i : String) (c u : Option String)
    (t s su tx n : Option String) (cv : Option Int)
    (cat img : Option ContentfulEntity) (fl : Option ContentfulFile) :
    toCategory (some (.mk i c u (some (.mk t s su tx n cv cat none img fl)))) =
      some (.mk i n s none) := by
  simp [toCategory]

@[simp] theorem toCategory_parent (i : String) (c u : Option String)
    (t s su tx n : Option String) (cv : Option Int)
    (cat img : Option ContentfulEntity) (fl : Option ContentfulFile)
    (p : ContentfulEntity) :
    toCategory (some (.mk i c u (some (.mk t s su tx n cv cat (some p) img fl)))) =
      some (.mk i n s (toCategory (some p))) := by
  simp [toCategory]

/-- `toImage`: null for a falsy input; always sets `id`; copies the
nested `fields.file` data level by level, each guard matching the
source's `if` chain. -/
def toImage (entity : Option ContentfulEntity) : Option ImageEntity :=
  match entity with
  | none => none
  | some e =>
    some (match e.fields with
    | none => { id := e.id }
    | some f =>
      match f.file with
      | none => { id := e.id }
      | some file =>
        let d0 : ImageEntity := { id := e.id }
        let d1 := if jsTruthy file.url then { d0 with url := file.url } else d0
        let d2 := if jsTruthy file.contentType then
            { d1 with contentType := file.contentType } else d1
        match file.details with
        | none => d2
        | some details =>
          let d3 := { d2 with size := details.size }
          match details.image with
          | none => d3
          | some img => { d3 with width := img.width, height := img.height })

/-- `toArticle`: null for a falsy input.  The source reads
`entity.fields.title` without guarding `entity.fields`, so a present
entity with no `fields` object throws a `TypeError`. -/
def toArticle (entity : Option ContentfulEntity) : Except String (Option ArticleEntity) :=
  match entity with
  | none => .ok none
  | some e =>
    match e.fields with
    | none => .error "TypeError"
    | some f =>
      let data : ArticleEntity := {
        id := e.id
        createdAt := e.createdAt
        updatedAt := e.updatedAt
        title := f.title
        slug := f.slug
        summary := f.summary
        countViews := if jsTruthyInt f.countViews then f.countViews.getD 1 else 1 }
      let data := if jsTruthy f.text then { data with text := f.text } else data
      let data := match f.category with
        | none => data
        | some c => { data with category := toCategory (some c) }
      let data := match f.image with
        | none => data
        | some i => { data with image := toImage (some i) }
      .ok (some data)

/-- JS `Array.prototype.map` with a callback that may throw: elements
are mapped left to right, the first exception aborts the whole map. -/
def jsMap {α β : Type} (f : α → Except String β) : List α → Except String (List β)
  | [] => .ok []
  | x :: xs =>
    match f x with
    | .error e => .error e
    | .ok y =>
      match jsMap f xs with
      | .error e => .error e
      | .ok ys => .ok (y :: ys)

/-- `toArticles`: `{total: 0, items: []}` for a falsy collection; when
`items` is absent, `total` becomes `collection.total || 0`; when `items`
is present, each item is mapped through `toArticle` (order preserved)
and `total` is left at its `0` default. -/
def toArticles (collection : Option ContentfulEntityCollection) :
    Except String (EntityCollection ArticleEntity) :=
  match collection with
  | none => .ok ⟨0, []⟩
  | some c =>
    match c.items with
    | none => .ok ⟨jsOrInt c.total 0, []⟩
    | some l => (jsMap toArticle l).map (fun items => ⟨0, items⟩)

/-- `toCategories`: same collection shell as `toArticles`, with
`toCategory` per item (which never throws). -/
def toCategories (collection : Option ContentfulEntityCollection) :
    EntityCollection CategoryEntity :=
  match collection with
  | none => ⟨0, []⟩
  | some c =>
    match c.items with
    | none => ⟨jsOrInt c.total 0, []⟩
    | some l => ⟨0, l.map toCategory⟩

/-- The flat backend query object (`ApiQuery`), restricted to the keys
this module writes.  Field ↔ source key: `includeLevel` ↔ `include`
(a Lean keyword), `fieldsSlug` ↔ `fields.slug`, `sysId` ↔ `sys.id`,
`fieldsCategorySysId` ↔ `fields.category.sys.id`,
`fieldsCategoryFieldsSlug` ↔ `fields.category.fields.slug`. -/
structure ApiQuery where
  limit : Option Int := none
  includeLevel : Option Int := none
  order : Option String := none
  select : Option String := none
  fieldsSlug : Option String := none
  sysId : Option String := none
  fieldsCategorySysId : Option String := none
  fieldsCategoryFieldsSlug : Option String := none
  content_type : Option String := none
deriving DecidableEq, Repr

/-- `FilterArticleParams`: `{ id?, slug? }`. -/
structure FilterArticleParams where
  id : Option String := none
  slug : Option String := none
deriving DecidableEq, Repr

/-- `FilterCategoryParams`: `{ id?, slug? }`. -/
structure FilterCategoryParams where
  id : Option String := none
  slug : Option String := none
deriving DecidableEq, Repr

/-- `FilterArticlesParams`.  The TS type narrows `order` to four literal
strings, but at runtime any (or no) string can arrive, so the switch's
default branch is reachable: `order` is an optional string here. -/
structure FilterArticlesParams where
  limit : Int
  order : Option String := none
  categoryId : Option String := none
  categorySlug : Option String := none
deriving DecidableEq, Repr

/-- A fetch collaborator: `getCacheEntries` specialised to one content
type, modelled as a function from the query to the raw collection the
backend would resolve with. -/
def Fetch : Type := ApiQuery → Option ContentfulEntityCollection

/-- `getArticles`: stamps the content type on the query, fetches, and
normalizes through `toArticles`. -/
def ContentApi.getArticles (fetch : Fetch) (query : ApiQuery) :
    Except String (EntityCollection ArticleEntity) :=
  toArticles (fetch { query with content_type := some "article" })

/-- `getCategories`: stamps the content type on the query, fetches, and
normalizes through `toCategories` (which never throws). -/
def ContentApi.getCategories (fetch : Fetch) (query : ApiQuery) :
    EntityCollection CategoryEntity :=
  toCategories (fetch { query with content_type := some "category" })

/-- `getCategoriesList`: the items of `getCategories`. -/
def ContentApi.getCategoriesList (fetch : Fetch) (query : ApiQuery) :
    List (Option CategoryEntity) :=
  (ContentApi.getCategories fetch query).items

/-- The query built inside `ContentApi.article`: `include: 1, limit: 1`,
then `fields.slug` when the slug is truthy, else `sys.id`. -/
def ContentApi.articleQuery (filter : FilterArticleParams) : ApiQuery :=
  let query : ApiQuery := { includeLevel := some 1, limit := some 1 }
  if jsTruthy filter.slug then { query with fieldsSlug := filter.slug }
  else { query with sysId := filter.id }

/-- The query built inside `ContentApi.category` (same shape as
`articleQuery`). -/
def ContentApi.categoryQuery (filter : FilterCategoryParams) : ApiQuery :=
  let query : ApiQuery := { includeLevel := some 1, limit := some 1 }
  if jsTruthy filter.slug then { query with fieldsSlug := filter.slug }
  else { query with sysId := filter.id }

/-- `ContentApi.article`: rejects when the filter is falsy or both `id`
and `slug` are falsy; otherwise fetches and extracts
`articles.items.length && articles.items[0] || null`. -/
def ContentApi.article (fetch : Fetch) (filter : Option FilterArticleParams) :
    Except String (Option ArticleEntity) :=
  match filter with
  | none => .error "parameter filter is invalid"
  | some f =>
    if !jsTruthy f.id && !jsTruthy f.slug then .error "parameter filter is invalid"
    else
      (ContentApi.getArticles fetch (ContentApi.articleQuery f)).map fun articles =>
        match articles.items with
        | [] => none
        | x :: _ => x

/-- `ContentApi.category`: same validation and extraction as `article`,
over categories. -/
def ContentApi.category (fetch : Fetch) (filter : Option FilterCategoryParams) :
    Except String (Option CategoryEntity) :=
  match filter with
  | none => .error "parameter filter is invalid"
  | some f =>
    if !jsTruthy f.id && !jsTruthy f.slug then .error "parameter filter is invalid"
    else
      .ok (match (ContentApi.getCategories fetch (ContentApi.categoryQuery f)).items with
        | [] => none
        | x :: _ => x)

/-- The query built inside `ContentApi.articles`: the filter's limit, the
fixed list projection, the order switch, and the optional category
equality filters. -/
def ContentApi.articlesQuery (filter : FilterArticlesParams) : ApiQuery :=
  let query : ApiQuery := { limit := some filter.limit }
  let query := { query with select := some "sys.id,sys.createdAt,sys.updatedAt,fields.title,fields.slug,fields.summary,fields.image,fields.category" }
  let query := { query with order := some (
    match filter.order with
    | some "createdAt" => "sys.createdAt"
    | some "countViews" => "fields.countViews"
    | some "-countViews" => "-fields.countViews"
    | _ => "-sys.createdAt") }
  let query := if jsTruthy filter.categoryId then
      { query with fieldsCategorySysId := filter.categoryId } else query
  let query := if jsTruthy filter.categorySlug then
      { query with fieldsCategoryFieldsSlug := filter.categorySlug } else query
  query

/-- `ContentApi.articles`: rejects when the filter object is absent,
otherwise fetches with `articlesQuery`. -/
def ContentApi.articles (fetch : Fetch) (filter : Option FilterArticlesParams) :
    Except String (EntityCollection ArticleEntity) :=
  match filter with
  | none => .error "parameter filter is invalid"
  | some f => ContentApi.getArticles fetch (ContentApi.articlesQuery f)

/-- The predicate of `mainCategories`' client-side filter:
`item => item.parent && item.parent.name`.  Reading `.parent` off a
`null` item throws a `TypeError`. -/
def mainCatPred : Option CategoryEntity → Except String Bool
  | none => .error "TypeError"
  | some c =>
    match c.parent with
    | none => .ok false
    | some p => .ok (jsTruthy p.name)

/-- JS `Array.prototype.filter` with a predicate that may throw. -/
def jsFilter {α : Type} (p : α → Except String Bool) : List α → Except String (List α)
  | [] => .ok []
  | x :: xs =>
    match p x with
    | .error e => .error e
    | .ok b =>
      match jsFilter p xs with
      | .error e => .error e
      | .ok rest => .ok (if b then x :: rest else rest)

/-- The query built inside `mainCategories`: slug order, `limit + 10`.
`limit` is a natural number per the spec's `limit ≥ 0` input constraint
(so JS `slice(0, limit)` is `List.take limit`). -/
def ContentApi.mainCategoriesQuery (limit : Nat) : ApiQuery :=
  { order := some "fields.slug", limit := some ((limit : Int) + 10) }

/-- `ContentApi.mainCategories`: over-fetches `limit + 10` categories
ordered by slug, filters to items with a named parent, truncates to
`limit`. -/
def ContentApi.mainCategories (fetch : Fetch) (limit : Nat) :
    Except String (List (Option CategoryEntity)) :=
  (jsFilter mainCatPred
      (ContentApi.getCategoriesList fetch (ContentApi.mainCategoriesQuery limit))).map
    (List.take limit)

/-! ## Helper lemmas -/

/-- The only exception `toArticle` can throw is the `TypeError` from
reading `entity.fields.title` off a missing `fields` object. -/
theorem toArticle_error_eq (e : Option ContentfulEntity) (s : String)
    (h : toArticle e = .error s) : s = "TypeError" := by
  rcases e with _ | ⟨i, c, u, _ | f⟩ <;> simp [toArticle] at h
  exact h.symm

/-- `jsMap toArticle` only propagates `toArticle`'s `TypeError`. -/
theorem jsMap_toArticle_error (l : List (Option ContentfulEntity)) (s : String)
    (h : jsMap toArticle l = .error s) : s = "TypeError" := by
  induction l with
  | nil => simp [jsMap] at h
  | cons x xs ih =>
    rw [jsMap] at h
    rcases hx : toArticle x with ex | y
    · rw [hx] at h
      injection h with h
      exact toArticle_error_eq x s (hx.trans (by rw [h]))
    · rw [hx] at h
      rcases hxs : jsMap toArticle xs with exs | ys
      · rw [hxs] at h
        injection h with h
        exact ih (hxs.trans (by rw [h]))
      · rw [hxs] at h
        exact absurd h (by simp)

/-- `toArticles` only ever throws `toArticle`'s `TypeError`. -/
theorem toArticles_error_eq (c : Option ContentfulEntityCollection) (s : String)
    (h : toArticles c = .error s) : s = "TypeError" := by
  rcases c with _ | ⟨items, total⟩
  · simp [toArticles] at h
  · rcases items with _ | l
    · simp [toArticles] at h
    · simp only [toArticles] at h
      rcases hm : jsMap toArticle l with e | items'
      · rw [hm] at h
        simp [Except.map] at h
        exact jsMap_toArticle_error l s (hm.trans (by rw [h]))
      · rw [hm] at h
        simp [Except.map] at h

/-- Every survivor of a `jsFilter` that completed without throwing
satisfied the predicate (with value `true`) and came from the input. -/
theorem jsFilter_ok_mem {α : Type} (p : α → Except String Bool) :
    ∀ (l r : List α), jsFilter p l = .ok r → ∀ x ∈ r, p x = .ok true ∧ x ∈ l := by
  intro l
  induction l with
  | nil =>
    intro r h x hx
    simp [jsFilter] at h
    subst h
    simp at hx
  | cons a as ih =>
    intro r h x hx
    rw [jsFilter] at h
    rcases ha : p a with e | b
    · rw [ha] at h
      exact absurd h (by simp)
    · rw [ha] at h
      rcases has : jsFilter p as with e | rest
      · rw [has] at h
        exact absurd h (by simp)
      · rw [has] at h
        injection h with h
        rcases b with _ | _
        · simp at h
          subst h
          rcases ih rest has x hx with ⟨hp, hmem⟩
          exact ⟨hp, List.mem_cons_of_mem a hmem⟩
        · simp at h
          subst h
          rcases List.mem_cons.mp hx with rfl | hx'
          · exact ⟨ha, List.mem_cons_self x as⟩
          · rcases ih rest has x hx' with ⟨hp, hmem⟩
            exact ⟨hp, List.mem_cons_of_mem a hmem⟩

/-- `toCategory` of a present raw entity is always a present category. -/
theorem toCategory_some_isSome (e : ContentfulEntity) :
    ∃ c, toCategory (some e) = some c := by
  rcases e with ⟨i, cr, up, _ | ⟨t, s, su, tx, n, cv, cat, _ | p, img, fl⟩⟩
  · exact ⟨_, toCategory_noFields i cr up⟩
  · exact ⟨_, toCategory_noParent i cr up t s su tx n cv cat img fl⟩
  · exact ⟨_, toCategory_parent i cr up t s su tx n cv cat img fl p⟩

/-! ## C1 -/

/-- C1 fails on the code: when the raw collection carries a non-empty
`items` array, the produced `total` stays at its `0` default, so
`items.length <= total` is violated.  Concrete input:
`{items: [rawCategory "a"], total: 5}` normalizes to a collection with
one item and `total = 0`. -/
theorem C1_counterexample :
    ¬ (((toCategories (some ⟨some [some (.mk "a" none none none)], some 5⟩)).items.length : Int)
        ≤ (toCategories (some ⟨some [some (.mk "a" none none none)], some 5⟩)).total) := by
  simp [toCategories]

/-- C1 (amended): the produced collections satisfy
`items.length <= total` when the raw collection is absent, or has no
`items` key and a nonnegative (defaulted) total; when `items` is
present, the output `total` is left at `0`, so the invariant holds only
for an empty mapped items list. -/
theorem C1_amended_invariant :
    (((toCategories none).items.length : Int) ≤ (toCategories none).total)
    ∧ (∀ r, toArticles none = .ok r → ((r.items.length : Int) ≤ r.total))
    ∧ (∀ c : ContentfulEntityCollection, c.items = none → 0 ≤ jsOrInt c.total 0 →
        (((toCategories (some c)).items.length : Int) ≤ (toCategories (some c)).total
          ∧ ∀ r, toArticles (some c) = .ok r → ((r.items.length : Int) ≤ r.total)))
    ∧ (∀ (c : ContentfulEntityCollection) (l : List (Option ContentfulEntity)),
        c.items = some l →
        ((toCategories (some c)).total = 0
          ∧ ∀ r, toArticles (some c) = .ok r → r.total = 0)) := by
  refine ⟨by simp [toCategories], ?_, ?_, ?_⟩
  · intro r h
    simp [toArticles] at h
    subst h
    simp
  · rintro ⟨items, total⟩ h htot
    cases h
    constructor
    · simpa [toCategories] using htot
    · intro r hr
      simp [toArticles] at hr
      subst hr
      simpa using htot
  · rintro ⟨items, total⟩ l h
    cases h
    constructor
    · simp [toCategories]
    · intro r hr
      simp only [toArticles] at hr
      rcases hm : jsMap toArticle l with e | items'
      · rw [hm] at hr
        simp [Except.map] at hr
      · rw [hm] at hr
        simp [Except.map] at hr
        rw [← hr]

/-- Witness for the amended C1 invariant at `{total: 5}` (no items). -/
theorem C1_amended_invariant_witness :
    ((toCategories (some ⟨none, some 5⟩)).items.length : Int)
      ≤ (toCategories (some ⟨none, some 5⟩)).total :=
  (C1_amended_invariant.2.2.1 ⟨none, some 5⟩ rfl (by decide)).1

/-! ## C2 -/

/-- C2: `toArticles`/`toCategories` map an absent collection to
`{total: 0, items: []}`; a collection with a total but no `items` key to
`{total: that total, items: []}`; and a collection with an `items` key
to the order-preserving per-item map, leaving the output `total` at its
`0` default. -/
theorem C2_collection_shape :
    toArticles none = .ok ⟨0, []⟩
    ∧ toCategories none = ⟨0, []⟩
    ∧ (∀ t : Int,
        toArticles (some ⟨none, some t⟩) = .ok ⟨t, []⟩
        ∧ toCategories (some ⟨none, some t⟩) = ⟨t, []⟩)
    ∧ (∀ (l : List (Option ContentfulEntity)) (tot : Option Int),
        toCategories (some ⟨some l, tot⟩) = ⟨0, l.map toCategory⟩)
    ∧ (∀ (a b : Option ContentfulEntity) (tot : Option Int)
        (x y : Option ArticleEntity),
        toArticle a = .ok x → toArticle b = .ok y →
        toArticles (some ⟨some [a, b], tot⟩) = .ok ⟨0, [x, y]⟩) := by
  refine ⟨rfl, rfl, ?_, ?_, ?_⟩
  · intro t
    rcases eq_or_ne t 0 with rfl | ht
    · exact ⟨rfl, rfl⟩
    · constructor
      · simp [toArticles, jsOrInt, ht]
      · simp [toCategories, jsOrInt, ht]
  · intro l tot
    simp [toCategories]
  · intro a b tot x y hx hy
    simp [toArticles, jsMap, hx, hy, Except.map]

/-- Witness for C2 at `{total: 5}` and at `{items: [null, null]}`. -/
theorem C2_collection_shape_witness :
    toArticles (some ⟨none, some 5⟩) = .ok ⟨5, []⟩
    ∧ toArticles (some ⟨some [none, none], none⟩) = .ok ⟨0, [none, none]⟩ :=
  ⟨(C2_collection_shape.2.2.1 5).1,
   C2_collection_shape.2.2.2.2 none none none none none rfl rfl⟩

/-! ## C10 -/

/-- C10: `article` and `category` test `id` and `slug` for truthiness,
not presence: a filter whose `id` and `slug` are each absent or the
empty string is rejected with the invalid-filter error. -/
theorem C10_falsy_filter_fields :
    ∀ (fetch : Fetch) (i s : Option String),
      (i = none ∨ i = some "") → (s = none ∨ s = some "") →
      ContentApi.article fetch (some ⟨i, s⟩) = .error "parameter filter is invalid"
      ∧ ContentApi.category fetch (some ⟨i, s⟩) = .error "parameter filter is invalid" := by
  intro fetch i s hi hs
  rcases hi with rfl | rfl <;> rcases hs with rfl | rfl <;>
    exact ⟨rfl, rfl⟩

/-- Witness for C10 at `{id: '', slug: ''}`. -/
theorem C10_falsy_filter_fields_witness :
    ContentApi.article (fun _ => none) (some ⟨some "", some ""⟩) =
      .error "parameter filter is invalid"
    ∧ ContentApi.category (fun _ => none) (some ⟨some "", some ""⟩) =
      .error "parameter filter is invalid" :=
  C10_falsy_filter_fields (fun _ => none) (some "") (some "")
    (Or.inr rfl) (Or.inr rfl)

/-! ## C6 -/

/-- C6: the single-item lookups build a query with `limit: 1` and
`include: 1`, filter by the slug field when a slug is supplied and by
the identifier field otherwise; with both supplied the slug wins and
the id is dropped from the query. -/
theorem C6_single_item_query :
    ∀ (f : FilterArticleParams) (g : FilterCategoryParams),
      (ContentApi.articleQuery f).limit = some 1
      ∧ (ContentApi.articleQuery f).includeLevel = some 1
      ∧ (ContentApi.categoryQuery g).limit = some 1
      ∧ (ContentApi.categoryQuery g).includeLevel = some 1
      ∧ (jsTruthy f.slug = true →
          (ContentApi.articleQuery f).fieldsSlug = f.slug
          ∧ (ContentApi.articleQuery f).sysId = none)
      ∧ (jsTruthy f.slug = false →
          (ContentApi.articleQuery f).sysId = f.id
          ∧ (ContentApi.articleQuery f).fieldsSlug = none)
      ∧ (jsTruthy g.slug = true →
          (ContentApi.categoryQuery g).fieldsSlug = g.slug
          ∧ (ContentApi.categoryQuery g).sysId = none)
      ∧ (jsTruthy g.slug = false →
          (ContentApi.categoryQuery g).sysId = g.id
          ∧ (ContentApi.categoryQuery g).fieldsSlug = none) := by
  intro f g
  cases hf : jsTruthy f.slug <;> cases hg : jsTruthy g.slug <;>
    simp [ContentApi.articleQuery, ContentApi.categoryQuery, hf, hg]

/-- Witness for C6: both id and slug supplied — the slug is used, the id
is ignored. -/
theorem C6_single_item_query_witness :
    ((ContentApi.articleQuery ⟨some "i", some "s"⟩).fieldsSlug = some "s"
      ∧ (ContentApi.articleQuery ⟨some "i", some "s"⟩).sysId = none)
    ∧ ((ContentApi.categoryQuery ⟨some "i", none⟩).sysId = some "i"
      ∧ (ContentApi.categoryQuery ⟨some "i", none⟩).fieldsSlug = none) :=
  ⟨(C6_single_item_query ⟨some "i", some "s"⟩ ⟨some "i", none⟩).2.2.2.2.1 rfl,
   (C6_single_item_query ⟨some "i", some "s"⟩ ⟨some "i", none⟩).2.2.2.2.2.2.2 rfl⟩

/-! ## C5 -/

/-- Normal form of the query built by `ContentApi.articles`. -/
theorem articlesQuery_eq (f : FilterArticlesParams) :
    ContentApi.articlesQuery f = {
      limit := some f.limit
      order := some (match f.order with
        | some "createdAt" => "sys.createdAt"
        | some "countViews" => "fields.countViews"
        | some "-countViews" => "-fields.countViews"
        | _ => "-sys.createdAt")
      select := some "sys.id,sys.createdAt,sys.updatedAt,fields.title,fields.slug,fields.summary,fields.image,fields.category"
      fieldsCategorySysId := if jsTruthy f.categoryId then f.categoryId else none
      fieldsCategoryFieldsSlug := if jsTruthy f.categorySlug then f.categorySlug else none } := by
  simp only [ContentApi.articlesQuery]
  cases jsTruthy f.categoryId <;> cases jsTruthy f.categorySlug <;> rfl

/-- The components of the fixed list projection, in query order. -/
def projectionFields : List String :=
  ["sys.id", "sys.createdAt", "sys.updatedAt", "fields.title", "fields.slug",
   "fields.summary", "fields.image", "fields.category"]

/-- C5: `articles` builds a query with the filter's limit and the fixed
projection (whose comma-separated components exclude `fields.text`);
the order value maps `createdAt`/`countViews`/`-countViews` to the
corresponding backend sort keys and everything else (including
`-createdAt` and absent) to descending creation order; truthy
`categoryId`/`categorySlug` add the related-category equality filters;
and `articles` fetches with exactly that query (plus the article
content type). -/
theorem C5_articles_query :
    ∀ (f : FilterArticlesParams) (fetch : Fetch),
      (ContentApi.articlesQuery f).limit = some f.limit
      ∧ (ContentApi.articlesQuery f).select =
          some "sys.id,sys.createdAt,sys.updatedAt,fields.title,fields.slug,fields.summary,fields.image,fields.category"
      ∧ (∀ s, (ContentApi.articlesQuery f).select = some s →
          s = String.intercalate "," projectionFields ∧ "fields.text" ∉ projectionFields)
      ∧ (f.order = some "createdAt" →
          (ContentApi.articlesQuery f).order = some "sys.createdAt")
      ∧ (f.order = some "countViews" →
          (ContentApi.articlesQuery f).order = some "fields.countViews")
      ∧ (f.order = some "-countViews" →
          (ContentApi.articlesQuery f).order = some "-fields.countViews")
      ∧ (f.order ≠ some "createdAt" → f.order ≠ some "countViews" →
          f.order ≠ some "-countViews" →
          (ContentApi.articlesQuery f).order = some "-sys.createdAt")
      ∧ (jsTruthy f.categoryId = true →
          (ContentApi.articlesQuery f).fieldsCategorySysId = f.categoryId)
      ∧ (jsTruthy f.categoryId = false →
          (ContentApi.articlesQuery f).fieldsCategorySysId = none)
      ∧ (jsTruthy f.categorySlug = true →
          (ContentApi.articlesQuery f).fieldsCategoryFieldsSlug = f.categorySlug)
      ∧ (jsTruthy f.categorySlug = false →
          (ContentApi.articlesQuery f).fieldsCategoryFieldsSlug = none)
      ∧ ContentApi.articles fetch (some f) =
          toArticles (fetch { ContentApi.articlesQuery f with content_type := some "article" }) := by
  intro f fetch
  obtain ⟨lim, o, ci, cs⟩ := f
  refine ⟨?_, ?_, ?_, ?_, ?_, ?_, ?_, ?_, ?_, ?_, ?_, rfl⟩
  · rw [articlesQuery_eq]
  · rw [articlesQuery_eq]
  · intro s hs
    rw [articlesQuery_eq] at hs
    injection hs with hs
    subst hs
    exact ⟨by decide, by decide⟩
  · intro h
    change o = some "createdAt" at h
    subst h
    simp only [articlesQuery_eq]
  · intro h
    change o = some "countViews" at h
    subst h
    simp only [articlesQuery_eq]
  · intro h
    change o = some "-countViews" at h
    subst h
    simp only [articlesQuery_eq]
  · intro h1 h2 h3
    change o ≠ some "createdAt" at h1
    change o ≠ some "countViews" at h2
    change o ≠ some "-countViews" at h3
    simp only [articlesQuery_eq]
  · intro h
    rw [articlesQuery_eq]
    simp only [h, if_true]
  · intro h
    rw [articlesQuery_eq]
    simp [h]
  · intro h
    rw [articlesQuery_eq]
    simp only [h, if_true]
  · intro h
    rw [articlesQuery_eq]
    simp [h]

/-- Witness for C5 at `{limit: 10, order: 'countViews'}`. -/
theorem C5_articles_query_witness :
    (ContentApi.articlesQuery ⟨10, some "countViews", none, none⟩).limit = some 10
    ∧ (ContentApi.articlesQuery ⟨10, some "countViews", none, none⟩).order =
        some "fields.countViews"
    ∧ "fields.text" ∉ projectionFields :=
  ⟨(C5_articles_query ⟨10, some "countViews", none, none⟩ (fun _ => none)).1,
   (C5_articles_query ⟨10, some "countViews", none, none⟩ (fun _ => none)).2.2.2.2.1 rfl,
   ((C5_articles_query ⟨10, some "countViews", none, none⟩ (fun _ => none)).2.2.1 _ rfl).2⟩

/-! ## C4 -/

/-- C4: `category(filter)` and `article(filter)` reject with the
invalid-filter error exactly when the filter is absent or has neither a
truthy `id` nor a truthy `slug`; a valid filter matching no item
resolves to `null` instead of rejecting. -/
theorem C4_invalid_filter_and_null :
    ∀ fetch : Fetch,
      (∀ filter : Option FilterCategoryParams,
        ContentApi.category fetch filter = .error "parameter filter is invalid"
        ↔ (filter = none ∨ ∃ f, filter = some f
            ∧ jsTruthy f.id = false ∧ jsTruthy f.slug = false))
      ∧ (∀ filter : Option FilterArticleParams,
        ContentApi.article fetch filter = .error "parameter filter is invalid"
        ↔ (filter = none ∨ ∃ f, filter = some f
            ∧ jsTruthy f.id = false ∧ jsTruthy f.slug = false))
      ∧ (∀ f : FilterCategoryParams,
          (jsTruthy f.id || jsTruthy f.slug) = true →
          (ContentApi.getCategories fetch (ContentApi.categoryQuery f)).items = [] →
          ContentApi.category fetch (some f) = .ok none)
      ∧ (∀ (f : FilterArticleParams) (r : EntityCollection ArticleEntity),
          (jsTruthy f.id || jsTruthy f.slug) = true →
          ContentApi.getArticles fetch (ContentApi.articleQuery f) = .ok r →
          r.items = [] →
          ContentApi.article fetch (some f) = .ok none) := by
  intro fetch
  refine ⟨?_, ?_, ?_, ?_⟩
  · intro filter
    rcases filter with _ | ⟨i, s⟩
    · simp [ContentApi.category]
    · cases hi : jsTruthy i <;> cases hs : jsTruthy s <;>
        simp [ContentApi.category, hi, hs]
  · intro filter
    rcases filter with _ | ⟨i, s⟩
    · simp [ContentApi.article]
    · cases hi : jsTruthy i <;> cases hs : jsTruthy s <;>
        simp only [ContentApi.article, hi, hs, Bool.not_false, Bool.not_true,
          Bool.and_self, Bool.and_false, Bool.false_and, if_true, if_false,
          Bool.false_eq_true]
      · simp [hi, hs]
      all_goals
        rcases hga : ContentApi.getArticles fetch
            (ContentApi.articleQuery ⟨i, s⟩) with e | r
        · have he : e = "TypeError" := toArticles_error_eq _ _ hga
          subst he
          simp [Except.map, hi, hs]
        · simp [Except.map, hi, hs]
  · intro f hvalid hempty
    rcases f with ⟨i, s⟩
    have hcond : (!jsTruthy i && !jsTruthy s) = false := by
      cases hi : jsTruthy i <;> cases hs : jsTruthy s <;> simp_all
    simp only [ContentApi.category, hcond, Bool.false_eq_true, if_false]
    rw [show (ContentApi.getCategories fetch
        (ContentApi.categoryQuery ⟨i, s⟩)).items = [] from hempty]
  · intro f r hvalid hga hr
    rcases f with ⟨i, s⟩
    have hcond : (!jsTruthy i && !jsTruthy s) = false := by
      cases hi : jsTruthy i <;> cases hs : jsTruthy s <;> simp_all
    simp only [ContentApi.article, hcond, Bool.false_eq_true, if_false]
    rw [hga]
    simp only [Except.map]
    rw [hr]

/-- Witness for C4: `category({})` rejects, `category({slug:'x'})`
against an empty backend resolves to null. -/
theorem C4_invalid_filter_and_null_witness :
    ContentApi.category (fun _ => none) (some ⟨none, none⟩) =
      .error "parameter filter is invalid"
    ∧ ContentApi.category (fun _ => none) (some ⟨none, some "x"⟩) = .ok none :=
  ⟨((C4_invalid_filter_and_null (fun _ => none)).1 (some ⟨none, none⟩)).mpr
      (Or.inr ⟨⟨none, none⟩, rfl, rfl, rfl⟩),
   (C4_invalid_filter_and_null (fun _ => none)).2.2.1 ⟨none, some "x"⟩ rfl rfl⟩

/-! ## C7 -/

/-- C7: `mainCategories(limit)` requests `limit + 10` categories ordered
by slug, keeps only items whose parent is present with a truthy name,
and returns at most `limit` of them. -/
theorem C7_mainCategories :
    ∀ (limit : Nat) (fetch : Fetch),
      (ContentApi.mainCategoriesQuery limit).limit = some ((limit : Int) + 10)
      ∧ (ContentApi.mainCategoriesQuery limit).order = some "fields.slug"
      ∧ ContentApi.mainCategories fetch limit =
          (jsFilter mainCatPred
            (ContentApi.getCategoriesList fetch
              (ContentApi.mainCategoriesQuery limit))).map (List.take limit)
      ∧ (∀ l, ContentApi.mainCategories fetch limit = .ok l →
          l.length ≤ limit
          ∧ ∀ x ∈ l, ∃ c p, x = some c ∧ c.parent = some p
              ∧ jsTruthy p.name = true) := by
  intro limit fetch
  refine ⟨rfl, rfl, rfl, ?_⟩
  intro l hl
  rw [ContentApi.mainCategories] at hl
  rcases hf : jsFilter mainCatPred
      (ContentApi.getCategoriesList fetch
        (ContentApi.mainCategoriesQuery limit)) with e | kept
  · rw [hf] at hl
    simp [Except.map] at hl
  · rw [hf] at hl
    simp only [Except.map, Except.ok.injEq] at hl
    subst hl
    constructor
    · simp [List.length_take]
    · intro x hx
      have hx' : x ∈ kept := List.take_subset limit kept hx
      have hp := (jsFilter_ok_mem mainCatPred _ kept hf x hx').1
      rcases x with _ | c
      · simp [mainCatPred] at hp
      · rcases hparent : c.parent with _ | p
        · rw [mainCatPred, hparent] at hp
          simp at hp
        · rw [mainCatPred, hparent] at hp
          simp only [Except.ok.injEq] at hp
          exact ⟨c, p, rfl, hparent, hp⟩

/-- Witness for C7 at limit 5 against an empty backend: 15 candidates
are requested and the empty result trivially satisfies the bound and
the parent condition. -/
theorem C7_mainCategories_witness :
    (ContentApi.mainCategoriesQuery 5).limit = some 15
    ∧ (List.length ([] : List (Option CategoryEntity)) ≤ 5
        ∧ ∀ x ∈ ([] : List (Option CategoryEntity)), ∃ c p,
            x = some c ∧ CategoryEntity.parent c = some p
            ∧ jsTruthy p.name = true) :=
  ⟨(C7_mainCategories 5 (fun _ => none)).1,
   (C7_mainCategories 5 (fun _ => none)).2.2.2 [] rfl⟩

/-! ## C3 -/

/-- Normal form of `toArticle` on a present entity with a present
fields object. -/
theorem toArticle_eq (i : String) (cr up : Option String)
    (t s su tx n : Option String) (cv : Option Int)
    (cat par img : Option ContentfulEntity) (fl : Option ContentfulFile) :
    toArticle (some (.mk i cr up (some (.mk t s su tx n cv cat par img fl)))) =
      .ok (some {
        id := i
        createdAt := cr
        updatedAt := up
        title := t
        slug := s
        summary := su
        countViews := if jsTruthyInt cv then cv.getD 1 else 1
        text := if jsTruthy tx then tx else none
        category := match cat with
          | none => none
          | some c => toCategory (some c)
        image := match img with
          | none => none
          | some im => toImage (some im) }) := by
  rcases cat with _ | c <;> rcases img with _ | im <;> cases htx : jsTruthy tx <;>
    simp [toArticle, htx]

/-- C3: for raw payloads with any subset of optional fields omitted,
`toArticle` (given the required `fields` object) and `toCategory` never
throw, and every omitted input field is absent on the output, except
`countViews`, which is `1` when the input `countViews` is absent or
falsy (and the input value itself when truthy). -/
theorem C3_normalization_total :
    (∀ (e : ContentfulEntity) (f : ContentfulFields), e.fields = some f →
      ∃ a, toArticle (some e) = .ok (some a)
        ∧ a.id = e.id
        ∧ a.createdAt = e.createdAt
        ∧ a.updatedAt = e.updatedAt
        ∧ a.title = f.title
        ∧ a.slug = f.slug
        ∧ a.summary = f.summary
        ∧ (f.text = none → a.text = none)
        ∧ (f.category = none → a.category = none)
        ∧ (f.image = none → a.image = none)
        ∧ (jsTruthyInt f.countViews = false → a.countViews = 1)
        ∧ (∀ n, f.countViews = some n → n ≠ 0 → a.countViews = n))
    ∧ (∀ e : ContentfulEntity, ∃ c, toCategory (some e) = some c
        ∧ c.id = e.id
        ∧ (e.fields = none → c.name = none ∧ c.slug = none ∧ c.parent = none)
        ∧ (∀ f, e.fields = some f → c.name = f.name ∧ c.slug = f.slug
            ∧ (f.parent = none → c.parent = none))) := by
  constructor
  · intro e f hf
    rcases e with ⟨i, cr, up, ff⟩
    simp only [ContentfulEntity.fields] at hf
    subst hf
    rcases f with ⟨t, s, su, tx, n, cv, cat, par, img, fl⟩
    refine ⟨_, toArticle_eq i cr up t s su tx n cv cat par img fl,
      rfl, rfl, rfl, rfl, rfl, rfl, ?_, ?_, ?_, ?_, ?_⟩
    · rintro rfl
      simp [jsTruthy]
    · rintro rfl
      rfl
    · rintro rfl
      rfl
    · intro hcv
      simp only [ContentfulFields.countViews] at hcv
      simp [hcv]
    · intro m hm h0
      simp only [ContentfulFields.countViews] at hm
      subst hm
      simp [jsTruthyInt, h0]
  · intro e
    rcases e with ⟨i, cr, up, _ | ⟨t, s, su, tx, n, cv, cat, _ | p, img, fl⟩⟩
    · refine ⟨_, toCategory_noFields i cr up, ?_, ?_, ?_⟩ <;> simp
    · refine ⟨_, toCategory_noParent i cr up t s su tx n cv cat img fl, ?_, ?_, ?_⟩ <;>
        simp
    · refine ⟨_, toCategory_parent i cr up t s su tx n cv cat img fl p, ?_, ?_, ?_⟩ <;>
        simp

/-- A raw fields object with every optional key omitted. -/
def wRawFields : ContentfulFields :=
  .mk none none none none none none none none none none

/-- A raw entity with id `"w"` and an otherwise empty fields object. -/
def wRawEntity : ContentfulEntity := .mk "w" none none (some wRawFields)

/-- Witness for C3 at a raw entity with all optional fields omitted. -/
theorem C3_normalization_total_witness :
    ∃ a, toArticle (some wRawEntity) = .ok (some a)
      ∧ a.id = wRawEntity.id
      ∧ a.createdAt = wRawEntity.createdAt
      ∧ a.updatedAt = wRawEntity.updatedAt
      ∧ a.title = wRawFields.title
      ∧ a.slug = wRawFields.slug
      ∧ a.summary = wRawFields.summary
      ∧ (wRawFields.text = none → a.text = none)
      ∧ (wRawFields.category = none → a.category = none)
      ∧ (wRawFields.image = none → a.image = none)
      ∧ (jsTruthyInt wRawFields.countViews = false → a.countViews = 1)
      ∧ (∀ n, wRawFields.countViews = some n → n ≠ 0 → a.countViews = n) :=
  C3_normalization_total.1 wRawEntity wRawFields rfl

/-! ## C8 -/

/-- Normal form of `toImage` when the nested `fields.file` is present. -/
theorem toImage_eq (i : String) (cr up : Option String)
    (t s su tx n : Option String) (cv : Option Int)
    (cat par img : Option ContentfulEntity)
    (u ct : Option String) (dt : Option ContentfulFileDetails) :
    toImage (some (.mk i cr up (some (.mk t s su tx n cv cat par img (some ⟨u, ct, dt⟩))))) =
      some { id := i
             url := if jsTruthy u then u else none
             contentType := if jsTruthy ct then ct else none
             size := match dt with
               | none => none
               | some d => d.size
             width := match dt with
               | none => none
               | some d => match d.image with
                 | none => none
                 | some di => di.width
             height := match dt with
               | none => none
               | some d => match d.image with
                 | none => none
                 | some di => di.height } := by
  cases hu : jsTruthy u <;> cases hct : jsTruthy ct <;>
    rcases dt with _ | ⟨sz, _ | ⟨w, h⟩⟩ <;> simp [toImage, hu, hct]

/-- C8: `toImage` on a present raw entity always sets `id`, copies
`url`/`contentType` only when each is truthy in the nested file
structure, `size` only when `file.details` is present, and
`width`/`height` only when `file.details.image` is present, never
throwing on absent nesting levels. -/
theorem C8_toImage :
    ∀ e : ContentfulEntity,
      (∃ img, toImage (some e) = some img ∧ img.id = e.id)
      ∧ (e.fields = none → toImage (some e) = some { id := e.id })
      ∧ (∀ f, e.fields = some f → f.file = none →
          toImage (some e) = some { id := e.id })
      ∧ (∀ f fl, e.fields = some f → f.file = some fl →
          ∃ img, toImage (some e) = some img ∧ img.id = e.id
            ∧ (jsTruthy fl.url = true → img.url = fl.url)
            ∧ (jsTruthy fl.url = false → img.url = none)
            ∧ (jsTruthy fl.contentType = true → img.contentType = fl.contentType)
            ∧ (jsTruthy fl.contentType = false → img.contentType = none)
            ∧ (fl.details = none → img.size = none ∧ img.width = none ∧ img.height = none)
            ∧ (∀ d, fl.details = some d → img.size = d.size
                ∧ (d.image = none → img.width = none ∧ img.height = none)
                ∧ (∀ di, d.image = some di →
                    img.width = di.width ∧ img.height = di.height))) := by
  intro e
  rcases e with ⟨i, cr, up, _ | ⟨t, s, su, tx, n, cv, cat, par, img, _ | ⟨u, ct, dt⟩⟩⟩
  · refine ⟨⟨{ id := i }, rfl, rfl⟩, fun _ => rfl, ?_, ?_⟩
    · intro f hf
      simp at hf
    · intro f fl hf
      simp at hf
  · refine ⟨⟨{ id := i }, rfl, rfl⟩, ?_, ?_, ?_⟩
    · intro hf
      simp at hf
    · intro f hf hfl
      rfl
    · intro f fl hf hfl
      simp at hf
      subst hf
      simp at hfl
  · refine ⟨⟨_, toImage_eq i cr up t s su tx n cv cat par img u ct dt, rfl⟩,
      ?_, ?_, ?_⟩
    · intro hf
      simp at hf
    · intro f hf hfl
      simp at hf
      subst hf
      simp at hfl
    · intro f fl hf hfl
      simp at hf
      subst hf
      simp at hfl
      subst hfl
      refine ⟨_, toImage_eq i cr up t s su tx n cv cat par img u ct dt,
        rfl, ?_, ?_, ?_, ?_, ?_, ?_⟩
      · intro h
        simp [h]
      · intro h
        simp [h]
      · intro h
        simp [h]
      · intro h
        simp [h]
      · intro hd
        simp at hd
        subst hd
        exact ⟨rfl, rfl, rfl⟩
      · intro d hd
        simp at hd
        subst hd
        refine ⟨rfl, ?_, ?_⟩
        · intro hdi
          simp [hdi]
        · intro di hdi
          simp [hdi]

/-- The raw nested file of the spec's `toImage` example. -/
def wImageFile : ContentfulFile :=
  { url := some "u"
    details := some { image := some { width := some 10, height := some 20 } } }

/-- Fields object carrying only the example file. -/
def wImageFields : ContentfulFields :=
  .mk none none none none none none none none none (some wImageFile)

/-- Raw image entity of the spec's `toImage` example. -/
def wImageEntity : ContentfulEntity := .mk "img1" none none (some wImageFields)

/-- Witness for C8 at the spec's example input
`{fields:{file:{url:'u', details:{image:{width:10,height:20}}}}}`. -/
theorem C8_toImage_witness :
    ∃ img, toImage (some wImageEntity) = some img ∧ img.id = wImageEntity.id
      ∧ (jsTruthy wImageFile.url = true → img.url = wImageFile.url)
      ∧ (jsTruthy wImageFile.url = false → img.url = none)
      ∧ (jsTruthy wImageFile.contentType = true →
          img.contentType = wImageFile.contentType)
      ∧ (jsTruthy wImageFile.contentType = false → img.contentType = none)
      ∧ (wImageFile.details = none →
          img.size = none ∧ img.width = none ∧ img.height = none)
      ∧ (∀ d, wImageFile.details = some d → img.size = d.size
          ∧ (d.image = none → img.width = none ∧ img.height = none)
          ∧ (∀ di, d.image = some di →
              img.width = di.width ∧ img.height = di.height)) :=
  (C8_toImage wImageEntity).2.2.2 wImageFields wImageFile rfl rfl

/-! ## C9 -/

/-- Raw category `"p2"` (no fields). -/
def p2Entity : ContentfulEntity := .mk "p2" none none none

/-- Fields of `"p1"`: parent `"p2"`. -/
def p1Fields : ContentfulFields :=
  .mk none none none none none none none (some p2Entity) none none

/-- Raw category `"p1"`: parent `"p2"`. -/
def p1Entity : ContentfulEntity := .mk "p1" none none (some p1Fields)

/-- Fields of `"c"`: parent `"p1"`. -/
def cFields : ContentfulFields :=
  .mk none none none none none none none (some p1Entity) none none

/-- Raw category `"c"` whose parent chain is two levels deep. -/
def cEntity : ContentfulEntity := .mk "c" none none (some cFields)

/-- The parent of an optional normalized category. -/
def parentOf (c : Option CategoryEntity) : Option CategoryEntity :=
  c.bind CategoryEntity.parent

/-- C9 fails on the code: `toCategory` recurses through every parent
level present in the raw payload, so on a two-level raw parent chain
the normalized parent's parent is itself normalized (present), not cut
off after one level. -/
theorem C9_counterexample :
    toCategory (some cEntity) =
      some (.mk "c" none none (some (.mk "p1" none none
        (some (.mk "p2" none none none)))))
    ∧ parentOf (parentOf (toCategory (some cEntity))) ≠ none := by
  constructor
  · simp [cEntity, cFields, p1Entity, p1Fields, p2Entity]
  · simp [cEntity, cFields, p1Entity, p1Fields, p2Entity, parentOf, Option.bind]

/-- C9 (amended): every `parent` present on a normalized
`CategoryEntity` is itself the full `toCategory` normalization of the
raw parent; normalization recurses through every parent level present
in the raw entity (not just one). -/
theorem C9_amended_parent_normalization :
    ∀ e : ContentfulEntity,
      (∀ f p, e.fields = some f → f.parent = some p →
        ∃ c pc, toCategory (some e) = some c ∧ toCategory (some p) = some pc
          ∧ c.parent = some pc)
      ∧ (∀ f, e.fields = some f → f.parent = none →
          ∃ c, toCategory (some e) = some c ∧ c.parent = none)
      ∧ (e.fields = none →
          ∃ c, toCategory (some e) = some c ∧ c.parent = none) := by
  intro e
  rcases e with ⟨i, cr, up, _ | ⟨t, s, su, tx, n, cv, cat, par, img, fl⟩⟩
  · refine ⟨?_, ?_, ?_⟩
    · intro f p hf
      simp at hf
    · intro f hf
      simp at hf
    · intro _
      exact ⟨_, toCategory_noFields i cr up, rfl⟩
  · refine ⟨?_, ?_, ?_⟩
    · intro f p hf hp
      simp at hf
      subst hf
      simp at hp
      subst hp
      obtain ⟨pc, hpc⟩ := toCategory_some_isSome p
      exact ⟨_, pc, toCategory_parent i cr up t s su tx n cv cat img fl p,
        hpc, by simp [hpc]⟩
    · intro f hf hp
      simp at hf
      subst hf
      simp at hp
      subst hp
      exact ⟨_, toCategory_noParent i cr up t s su tx n cv cat img fl, rfl⟩
    · intro hf
      simp at hf

/-- Witness for the amended C9 at the two-level chain `c → p1 → p2`. -/
theorem C9_amended_parent_normalization_witness :
    ∃ c pc, toCategory (some cEntity) = some c
      ∧ toCategory (some p1Entity) = some pc ∧ c.parent = some pc :=
  (C9_amended_parent_normalization cEntity).1 cFields p1Entity rfl rfl
